import Mathlib

/-!
Shallow embedding of the message_board repository (src/src/lib.rs and
src/src/bin/server.rs) used to settle the frozen claims about its
specification.  Bytes are modelled as natural numbers below 256, byte
streams as lists of naturals consumed front-first (mirroring the Rust
iterators), Rust `u64`/`u32`/`u16` values as naturals with explicit
range side conditions, Rust `String` values as their UTF-8 byte lists,
and fallible operations as `Except` values.  A Rust `assert!` failure
(a panic) is modelled as an `Except.error .assertFailed` outcome of the
encoder.
-/

namespace MessageBoard

/-! Constants from src/src/lib.rs lines 3-29. -/

def ROOT_ID : Nat := 0
def ENTRY_MAGIC_NUMBER : Nat := 0x1234
def USER_MAGIC_NUMBER : Nat := 0x1470
def ENTRY_FILE_VERSION : Nat := 0x00
def USER_FILE_VERSION : Nat := 0x00
def REQUEST_FORMAT_VERSION : Nat := 0x00
def RESPONSE_FORMAT_VERSION : Nat := 0x00
def ERROR : Nat := 0xff
def MESSAGE : Nat := 0x00
def ACCESS_GROUP : Nat := 0x01
def GET_ENTRY : Nat := 0x00
def ADD_ENTRY : Nat := 0x01
def GET_USER : Nat := 0x20
def ADD_USER : Nat := 0x21
def INHERIT_BASE : Nat := 0x00
def WHITE_BASE : Nat := 0x01
def BLACK_BASE : Nat := 0x02

/-- DataError from src/src/lib.rs lines 48-66.  The Rust `StringError`
variant carries a `FromUtf8Error` payload; the payload is dropped here. -/
inductive DataError where
  | IncorrectMagicNum
  | InsufficientBytes
  | InvalidDiscriminant
  | StringError
  | UnsupportedVersion
  | DoesNotExist
  | AlreadyExists
  | InsufficientPerms
  | BadCredentials
  | MalformedRoot
  | NonChild
  | InternalError
  | OOBUsizeConversion
deriving DecidableEq, Repr

/-- Outcome of a Rust `assert!` failure inside an encoder (`extend_data`
panics in lib.rs lines 205, 313, 389, 394, 466). -/
inductive PanicKind where
  | assertFailed
deriving DecidableEq, Repr

/-! Little-endian byte readers, modelling read_u16 / read_u32 / read_u64
(src/src/lib.rs lines 74-96): pull `n` bytes off the front of the stream,
failing with `InsufficientBytes` if the stream runs dry, and combine them
little-endian. -/

def readLE : Nat → List Nat → Except DataError (Nat × List Nat)
  | 0, l => .ok (0, l)
  | _ + 1, [] => .error .InsufficientBytes
  | n + 1, b :: l =>
    match readLE n l with
    | .ok (v, rest) => .ok (b + 256 * v, rest)
    | .error e => .error e

def read_u16 (l : List Nat) : Except DataError (Nat × List Nat) := readLE 2 l
def read_u32 (l : List Nat) : Except DataError (Nat × List Nat) := readLE 4 l
def read_u64 (l : List Nat) : Except DataError (Nat × List Nat) := readLE 8 l

/-- Next single byte of the stream, modelling `data_iter.next().ok_or(InsufficientBytes)`. -/
def readByte (l : List Nat) : Except DataError (Nat × List Nat) :=
  match l with
  | [] => .error .InsufficientBytes
  | b :: rest => .ok (b, rest)

/-- Little-endian encoding of `v` on `n` bytes, modelling `to_le_bytes`. -/
def toLE : Nat → Nat → List Nat
  | 0, _ => []
  | n + 1, v => v % 256 :: toLE n (v / 256)

@[simp] theorem toLE_length (n v : Nat) : (toLE n v).length = n := by
  induction n generalizing v with
  | zero => rfl
  | succ n ih => simp [toLE, ih]

@[simp] theorem exceptOkBind {e a b : Type} (x : a) (f : a → Except e b) :
    (Except.ok x >>= f) = f x := rfl

@[simp] theorem exceptErrBind {e a b : Type} (x : e) (f : a → Except e b) :
    ((Except.error x : Except e a) >>= f) = .error x := rfl

theorem readLE_toLE (n : Nat) (v : Nat) (rest : List Nat) (h : v < 256 ^ n) :
    readLE n (toLE n v ++ rest) = .ok (v, rest) := by
  induction n generalizing v with
  | zero =>
    have : v = 0 := Nat.lt_one_iff.mp (by simpa using h)
    simp [readLE, toLE, this]
  | succ n ih =>
    have hdiv : v / 256 < 256 ^ n := by
      apply (Nat.div_lt_iff_lt_mul (by norm_num : 0 < 256)).mpr
      calc v < 256 ^ (n + 1) := h
        _ = 256 ^ n * 256 := by rw [pow_succ]
    simp [toLE, readLE, ih (v / 256) hdiv, Nat.mod_add_div]

theorem readLE_err (n : Nat) (l : List Nat) (h : l.length < n) :
    readLE n l = .error .InsufficientBytes := by
  induction n generalizing l with
  | zero => omega
  | succ n ih =>
    cases l with
    | nil => rfl
    | cons b l =>
      have : l.length < n := by simpa using h
      simp [readLE, ih l this]

/-! UTF-8 validation, modelling `String::from_utf8` (used in lib.rs lines
364 and 370).  A byte list is accepted exactly when it is well-formed
UTF-8 per RFC 3629 (no overlong forms, no surrogates, max U+10FFFF),
which is the validation Rust performs. -/

def isUtf8Cont (b : Nat) : Bool := 0x80 ≤ b && b ≤ 0xBF

def validUtf8 : List Nat → Bool
  | [] => true
  | b :: rest =>
    if b ≤ 0x7F then validUtf8 rest
    else if 0xC2 ≤ b && b ≤ 0xDF then
      match rest with
      | c1 :: r => isUtf8Cont c1 && validUtf8 r
      | [] => false
    else if b = 0xE0 then
      match rest with
      | c1 :: c2 :: r => (0xA0 ≤ c1 && c1 ≤ 0xBF) && isUtf8Cont c2 && validUtf8 r
      | _ => false
    else if (0xE1 ≤ b && b ≤ 0xEC) || b = 0xEE || b = 0xEF then
      match rest with
      | c1 :: c2 :: r => isUtf8Cont c1 && isUtf8Cont c2 && validUtf8 r
      | _ => false
    else if b = 0xED then
      match rest with
      | c1 :: c2 :: r => (0x80 ≤ c1 && c1 ≤ 0x9F) && isUtf8Cont c2 && validUtf8 r
      | _ => false
    else if b = 0xF0 then
      match rest with
      | c1 :: c2 :: c3 :: r => (0x90 ≤ c1 && c1 ≤ 0xBF) && isUtf8Cont c2 && isUtf8Cont c3 && validUtf8 r
      | _ => false
    else if 0xF1 ≤ b && b ≤ 0xF3 then
      match rest with
      | c1 :: c2 :: c3 :: r => isUtf8Cont c1 && isUtf8Cont c2 && isUtf8Cont c3 && validUtf8 r
      | _ => false
    else if b = 0xF4 then
      match rest with
      | c1 :: c2 :: c3 :: r => (0x80 ≤ c1 && c1 ≤ 0x8F) && isUtf8Cont c2 && isUtf8Cont c3 && validUtf8 r
      | _ => false
    else false

/-- String::from_utf8 on the collected bytes: succeeds with the same
bytes exactly when they are valid UTF-8 (a Rust String is its UTF-8
bytes in this model), otherwise `StringError` as in lib.rs line 364. -/
def from_utf8 (bytes : List Nat) : Except DataError (List Nat) :=
  if validUtf8 bytes then .ok bytes else .error .StringError

/-! DefaultBase and DefaultedIdSet, src/src/lib.rs lines 212-332. -/

inductive DefaultBase where
  | Inherit
  | White
  | Black
deriving DecidableEq, Repr

def DefaultBase.get_discriminant : DefaultBase → Nat
  | .Inherit => INHERIT_BASE
  | .White => WHITE_BASE
  | .Black => BLACK_BASE

def DefaultBase.from_discriminant (discriminant : Nat) : Except DataError DefaultBase :=
  if discriminant = INHERIT_BASE then .ok .Inherit
  else if discriminant = WHITE_BASE then .ok .White
  else if discriminant = BLACK_BASE then .ok .Black
  else .error .InvalidDiscriminant

inductive DefaultedIdSet where
  | Inherit (whitelist_ids blacklist_ids : List Nat)
  | White (blacklist_ids : List Nat)
  | Black (whitelist_ids : List Nat)
deriving DecidableEq, Repr

/-- DefaultedIdSet::contains, src/src/lib.rs lines 256-274. -/
def DefaultedIdSet.contains (s : DefaultedIdSet) (id : Nat) : Option Bool :=
  match s with
  | .Inherit whitelist_ids blacklist_ids =>
    match whitelist_ids.contains id, blacklist_ids.contains id with
    | true, false => some true
    | false, true => some false
    | _, _ => none
  | .White blacklist_ids => some (! blacklist_ids.contains id)
  | .Black whitelist_ids => some (whitelist_ids.contains id)

def DefaultedIdSet.get_default_base : DefaultedIdSet → DefaultBase
  | .Inherit _ _ => .Inherit
  | .Black _ => .Black
  | .White _ => .White

/-- Inner helper read_vec of DefaultedIdSet::from_data_iter (lib.rs
lines 285-292): a u32 length then that many u64 ids. -/
def readU64List : Nat → List Nat → Except DataError (List Nat × List Nat)
  | 0, l => .ok ([], l)
  | n + 1, l => do
    let (v, l) ← read_u64 l
    let (vs, l) ← readU64List n l
    .ok (v :: vs, l)

def read_vec (l : List Nat) : Except DataError (List Nat × List Nat) := do
  let (len, l) ← read_u32 l
  readU64List len l

def DefaultedIdSet.from_data_iter (l : List Nat) :
    Except DataError (DefaultedIdSet × List Nat) := do
  let (d, l) ← readByte l
  match ← DefaultBase.from_discriminant d with
  | .Inherit => do
    let (whitelist_ids, l) ← read_vec l
    let (blacklist_ids, l) ← read_vec l
    .ok (.Inherit whitelist_ids blacklist_ids, l)
  | .White => do
    let (blacklist_ids, l) ← read_vec l
    .ok (.White blacklist_ids, l)
  | .Black => do
    let (whitelist_ids, l) ← read_vec l
    .ok (.Black whitelist_ids, l)

/-- Inner helper write_vec of DefaultedIdSet::extend_data (lib.rs lines
312-316); the `assert!(vec.len() <= u32::MAX)` failure is the
`assertFailed` outcome. -/
def write_vec (vec : List Nat) : Except PanicKind (List Nat) :=
  if vec.length ≤ 0xFFFFFFFF then
    .ok (toLE 4 vec.length ++ vec.flatMap (toLE 8))
  else .error .assertFailed

/-- DefaultedIdSet::extend_data (lib.rs lines 311-331), producing the
bytes it appends: the base discriminant, then the list(s). -/
def DefaultedIdSet.into_data : DefaultedIdSet → Except PanicKind (List Nat)
  | .Inherit whitelist_ids blacklist_ids => do
    let w ← write_vec whitelist_ids
    let b ← write_vec blacklist_ids
    .ok (INHERIT_BASE :: (w ++ b))
  | .White blacklist_ids => do
    let b ← write_vec blacklist_ids
    .ok (WHITE_BASE :: b)
  | .Black whitelist_ids => do
    let w ← write_vec whitelist_ids
    .ok (BLACK_BASE :: w)

/-! HeaderData, src/src/lib.rs lines 158-210. -/

structure HeaderData where
  version : Nat
  parent_id : Nat
  children_ids : List Nat
  author_id : Nat
deriving DecidableEq, Repr

/-- HeaderData::from_data_iter (lib.rs lines 174-192): gives the header,
the raw entry-type byte, and the remaining stream. -/
def HeaderData.from_data_iter (l : List Nat) :
    Except DataError ((HeaderData × Nat) × List Nat) := do
  let (magic_number, l) ← read_u16 l
  if magic_number ≠ ENTRY_MAGIC_NUMBER then .error .IncorrectMagicNum else do
  let (version, l) ← readByte l
  if version ≠ 0 then .error .UnsupportedVersion else do
  let (entry_type, l) ← readByte l
  let (parent_id, l) ← read_u64 l
  let (num_children, l) ← read_u16 l
  let (children_ids, l) ← readU64List num_children l
  let (author_id, l) ← read_u64 l
  .ok (({ version, parent_id, children_ids, author_id }, entry_type), l)

def HeaderData.from_data (data : List Nat) : Except DataError (HeaderData × Nat) :=
  (HeaderData.from_data_iter data).map (·.1)

/-- HeaderData::extend_data (lib.rs lines 200-209), as the bytes it
appends; the `assert!(children_ids.len() <= u16::MAX)` failure is the
`assertFailed` outcome. -/
def HeaderData.into_data (h : HeaderData) (entry_type : Nat) : Except PanicKind (List Nat) :=
  if h.children_ids.length ≤ 0xFFFF then
    .ok (toLE 2 ENTRY_MAGIC_NUMBER ++ [ENTRY_FILE_VERSION, entry_type] ++ toLE 8 h.parent_id
      ++ toLE 2 h.children_ids.length ++ h.children_ids.flatMap (toLE 8) ++ toLE 8 h.author_id)
  else .error .assertFailed

/-! EntryData and Entry, src/src/lib.rs lines 125-156 and 334-402. -/

inductive EntryData where
  | Message (timestamp : Nat) (message : List Nat)
  | AccessGroup (name : List Nat) (write_perms read_perms : DefaultedIdSet)
deriving DecidableEq, Repr

def EntryData.get_discriminant : EntryData → Nat
  | .Message _ _ => MESSAGE
  | .AccessGroup _ _ _ => ACCESS_GROUP

/-- EntryData::from_data_iter (lib.rs lines 359-377).  Note the Message
arm takes `message_size` bytes with `Iterator::take`, which silently
yields fewer bytes when the stream is short (the length check on line
365 is commented out in the source). -/
def EntryData.from_data_iter (l : List Nat) (entry_type : Nat) :
    Except DataError (EntryData × List Nat) :=
  if entry_type = MESSAGE then do
    let (timestamp, l) ← read_u64 l
    let (message_size, l) ← read_u32 l
    let message ← from_utf8 (l.take message_size)
    .ok (.Message timestamp message, l.drop message_size)
  else if entry_type = ACCESS_GROUP then do
    let (name_len, l) ← read_u32 l
    let name ← from_utf8 (l.take name_len)
    let l := l.drop name_len
    let (write_perms, l) ← DefaultedIdSet.from_data_iter l
    let (read_perms, l) ← DefaultedIdSet.from_data_iter l
    .ok (.AccessGroup name write_perms read_perms, l)
  else .error .InvalidDiscriminant

/-- EntryData::extend_data (lib.rs lines 385-401); the two
`assert!(len <= u32::MAX)` failures are `assertFailed` outcomes. -/
def EntryData.into_data : EntryData → Except PanicKind (List Nat)
  | .Message timestamp message =>
    if message.length ≤ 0xFFFFFFFF then
      .ok (toLE 8 timestamp ++ toLE 4 message.length ++ message)
    else .error .assertFailed
  | .AccessGroup name write_perms read_perms =>
    if name.length ≤ 0xFFFFFFFF then do
      let w ← write_perms.into_data
      let r ← read_perms.into_data
      .ok (toLE 4 name.length ++ name ++ w ++ r)
    else .error .assertFailed

structure Entry where
  header_data : HeaderData
  entry_data : EntryData
deriving DecidableEq, Repr

def Entry.from_data_iter (l : List Nat) : Except DataError (Entry × List Nat) := do
  let ((header_data, entry_type), l) ← HeaderData.from_data_iter l
  let (entry_data, l) ← EntryData.from_data_iter l entry_type
  .ok ({ header_data, entry_data }, l)

def Entry.from_data (data : List Nat) : Except DataError Entry :=
  (Entry.from_data_iter data).map (·.1)

/-- Entry::extend_data / into_data (lib.rs lines 146-155): header bytes
with the payload discriminant, then the payload bytes. -/
def Entry.into_data (e : Entry) : Except PanicKind (List Nat) := do
  let h ← e.header_data.into_data e.entry_data.get_discriminant
  let d ← e.entry_data.into_data
  .ok (h ++ d)

/-! UserData, src/src/lib.rs lines 419-470. -/

structure UserData where
  entry_ids : List Nat
deriving DecidableEq, Repr

def UserData.new_empty : UserData := ⟨[]⟩

def UserData.from_data_iter (l : List Nat) : Except DataError (UserData × List Nat) := do
  let (magic_number, l) ← read_u16 l
  if magic_number ≠ USER_MAGIC_NUMBER then .error .IncorrectMagicNum else do
  let (version, l) ← readByte l
  if version ≠ 0 then .error .UnsupportedVersion else do
  let (num_entries, l) ← read_u32 l
  let (entry_ids, l) ← readU64List num_entries l
  .ok ({ entry_ids }, l)

def UserData.from_data (data : List Nat) : Except DataError UserData :=
  (UserData.from_data_iter data).map (·.1)

/-- UserData::extend_data (lib.rs lines 463-469); the
`assert!(entry_ids.len() <= u32::MAX)` failure is the `assertFailed`
outcome. -/
def UserData.into_data (u : UserData) : Except PanicKind (List Nat) :=
  if u.entry_ids.length ≤ 0xFFFFFFFF then
    .ok (toLE 2 USER_MAGIC_NUMBER ++ [USER_FILE_VERSION] ++ toLE 4 u.entry_ids.length
      ++ u.entry_ids.flatMap (toLE 8))
  else .error .assertFailed

/-! BoardRequest, src/src/lib.rs lines 490-557. -/

inductive BoardRequest where
  | GetEntry (user_id entry_id : Nat)
  | AddEntry (user_id : Nat) (entry : Entry)
  | GetUser (user_id : Nat)
  | AddUser
deriving DecidableEq, Repr

def BoardRequest.from_data (data : List Nat) : Except DataError BoardRequest := do
  let (version, l) ← readByte data
  if version ≠ 0x00 then .error .UnsupportedVersion else do
  let (discriminant, l) ← readByte l
  if discriminant = GET_ENTRY then do
    let (user_id, l) ← read_u64 l
    let (entry_id, _) ← read_u64 l
    .ok (.GetEntry user_id entry_id)
  else if discriminant = ADD_ENTRY then do
    let (user_id, l) ← read_u64 l
    let (entry, _) ← Entry.from_data_iter l
    .ok (.AddEntry user_id entry)
  else if discriminant = GET_USER then do
    let (user_id, _) ← read_u64 l
    .ok (.GetUser user_id)
  else if discriminant = ADD_USER then
    .ok .AddUser
  else .error .InvalidDiscriminant

def BoardRequest.into_data : BoardRequest → Except PanicKind (List Nat)
  | .GetEntry user_id entry_id =>
    .ok (REQUEST_FORMAT_VERSION :: GET_ENTRY :: (toLE 8 user_id ++ toLE 8 entry_id))
  | .AddEntry user_id entry => do
    let e ← entry.into_data
    .ok (REQUEST_FORMAT_VERSION :: ADD_ENTRY :: (toLE 8 user_id ++ e))
  | .GetUser user_id =>
    .ok (REQUEST_FORMAT_VERSION :: GET_USER :: toLE 8 user_id)
  | .AddUser => .ok [REQUEST_FORMAT_VERSION, ADD_USER]

/-! BoardResponse, src/src/lib.rs lines 562-651. -/

inductive BoardResponse where
  | GetEntry (entry : Entry)
  | AddEntry (entry_id : Nat)
  | GetUser (user : UserData)
  | AddUser (user_id : Nat)
deriving DecidableEq, Repr

/-- MaybeBoardResponse = Result of BoardResponse and DataError (lib.rs line 570). -/
abbrev MaybeBoardResponse := Except DataError BoardResponse

def BoardResponse.from_data (data : List Nat) : Except DataError BoardResponse := do
  let (version, l) ← readByte data
  if version ≠ 0 then .error .UnsupportedVersion else do
  let (d, l) ← readByte l
  if d = GET_ENTRY then do
    let (entry, _) ← Entry.from_data_iter l
    .ok (.GetEntry entry)
  else if d = ADD_ENTRY then do
    let (entry_id, _) ← read_u64 l
    .ok (.AddEntry entry_id)
  else if d = GET_USER then do
    let (user, _) ← UserData.from_data_iter l
    .ok (.GetUser user)
  else if d = ADD_USER then do
    let (user_id, _) ← read_u64 l
    .ok (.AddUser user_id)
  else if d = ERROR then
    .error .InternalError
  else .error .InvalidDiscriminant

/-- BoardResponse::extend_data / into_data (lib.rs lines 620-650):
takes a MaybeBoardResponse; any Err is put on the wire as the bare
ERROR discriminant. -/
def BoardResponse.into_data (val : MaybeBoardResponse) : Except PanicKind (List Nat) :=
  match val with
  | .ok (.GetEntry entry) => do
    let e ← entry.into_data
    .ok (RESPONSE_FORMAT_VERSION :: GET_ENTRY :: e)
  | .ok (.AddEntry entry_id) =>
    .ok (RESPONSE_FORMAT_VERSION :: ADD_ENTRY :: toLE 8 entry_id)
  | .ok (.GetUser user) => do
    let u ← user.into_data
    .ok (RESPONSE_FORMAT_VERSION :: GET_USER :: u)
  | .ok (.AddUser user_id) =>
    .ok (RESPONSE_FORMAT_VERSION :: ADD_USER :: toLE 8 user_id)
  | .error _ =>
    .ok [RESPONSE_FORMAT_VERSION, ERROR]

instance {e a : Type} [DecidableEq e] [DecidableEq a] : DecidableEq (Except e a) := fun
  | .ok x, .ok y =>
    if h : x = y then .isTrue (by rw [h]) else .isFalse (by intro hc; cases hc; exact h rfl)
  | .error x, .error y =>
    if h : x = y then .isTrue (by rw [h]) else .isFalse (by intro hc; cases hc; exact h rfl)
  | .ok _, .error _ => .isFalse (by intro hc; cases hc)
  | .error _, .ok _ => .isFalse (by intro hc; cases hc)

/-- C2: DefaultedIdSet::contains decides membership exactly as the spec
states: a White set answers some false exactly on blacklisted ids and
some true otherwise; a Black set answers some true exactly on
whitelisted ids and some false otherwise; an Inherit set answers some
true exactly when the id is whitelisted and not blacklisted, some false
exactly when blacklisted and not whitelisted, and none exactly when the
id is in both lists or in neither. -/
theorem defaultedIdSet_contains_spec :
    ∀ (whitelist_ids blacklist_ids : List Nat) (id : Nat),
      ((DefaultedIdSet.White blacklist_ids).contains id = some false ↔ id ∈ blacklist_ids) ∧
      ((DefaultedIdSet.White blacklist_ids).contains id = some true ↔ id ∉ blacklist_ids) ∧
      ((DefaultedIdSet.Black whitelist_ids).contains id = some true ↔ id ∈ whitelist_ids) ∧
      ((DefaultedIdSet.Black whitelist_ids).contains id = some false ↔ id ∉ whitelist_ids) ∧
      ((DefaultedIdSet.Inherit whitelist_ids blacklist_ids).contains id = some true ↔
        (id ∈ whitelist_ids ∧ id ∉ blacklist_ids)) ∧
      ((DefaultedIdSet.Inherit whitelist_ids blacklist_ids).contains id = some false ↔
        (id ∈ blacklist_ids ∧ id ∉ whitelist_ids)) ∧
      ((DefaultedIdSet.Inherit whitelist_ids blacklist_ids).contains id = none ↔
        (id ∈ whitelist_ids ↔ id ∈ blacklist_ids)) := by
  intro whitelist_ids blacklist_ids id
  by_cases hw : id ∈ whitelist_ids <;> by_cases hb : id ∈ blacklist_ids <;>
    simp [DefaultedIdSet.contains, hw, hb]

/-! Validity of constructed values.  A value is validly constructed when
every numeric field fits the Rust integer type it came from (`u64`
fields below 2^64), every String field is valid UTF-8 (a Rust String
invariant), every header carries the current file version, and every
list fits its wire length prefix (matching the encoder's assertions). -/

def wfIds (l : List Nat) : Prop := ∀ x ∈ l, x < 2 ^ 64

def DefaultedIdSet.wf : DefaultedIdSet → Prop
  | .Inherit wl bl => wfIds wl ∧ wfIds bl ∧ wl.length ≤ 0xFFFFFFFF ∧ bl.length ≤ 0xFFFFFFFF
  | .White bl => wfIds bl ∧ bl.length ≤ 0xFFFFFFFF
  | .Black wl => wfIds wl ∧ wl.length ≤ 0xFFFFFFFF

def HeaderData.wf (h : HeaderData) : Prop :=
  h.version = 0 ∧ h.parent_id < 2 ^ 64 ∧ h.author_id < 2 ^ 64 ∧ wfIds h.children_ids ∧
    h.children_ids.length ≤ 0xFFFF

def EntryData.wf : EntryData → Prop
  | .Message timestamp message =>
      timestamp < 2 ^ 64 ∧ validUtf8 message = true ∧ message.length ≤ 0xFFFFFFFF
  | .AccessGroup name wp rp =>
      validUtf8 name = true ∧ name.length ≤ 0xFFFFFFFF ∧ wp.wf ∧ rp.wf

def Entry.wf (e : Entry) : Prop := e.header_data.wf ∧ e.entry_data.wf

def UserData.wf (u : UserData) : Prop := wfIds u.entry_ids ∧ u.entry_ids.length ≤ 0xFFFFFFFF

def BoardRequest.wf : BoardRequest → Prop
  | .GetEntry uid eid => uid < 2 ^ 64 ∧ eid < 2 ^ 64
  | .AddEntry uid e => uid < 2 ^ 64 ∧ e.wf
  | .GetUser uid => uid < 2 ^ 64
  | .AddUser => True

def BoardResponse.wf : BoardResponse → Prop
  | .GetEntry e => e.wf
  | .AddEntry eid => eid < 2 ^ 64
  | .GetUser u => u.wf
  | .AddUser uid => uid < 2 ^ 64

instance (l : List Nat) : Decidable (wfIds l) :=
  inferInstanceAs (Decidable (∀ x ∈ l, x < 2 ^ 64))

instance : (s : DefaultedIdSet) → Decidable s.wf
  | .Inherit wl bl => inferInstanceAs (Decidable
      (wfIds wl ∧ wfIds bl ∧ wl.length ≤ 0xFFFFFFFF ∧ bl.length ≤ 0xFFFFFFFF))
  | .White bl => inferInstanceAs (Decidable (wfIds bl ∧ bl.length ≤ 0xFFFFFFFF))
  | .Black wl => inferInstanceAs (Decidable (wfIds wl ∧ wl.length ≤ 0xFFFFFFFF))

instance (h : HeaderData) : Decidable h.wf :=
  inferInstanceAs (Decidable (h.version = 0 ∧ h.parent_id < 2 ^ 64 ∧ h.author_id < 2 ^ 64 ∧
    wfIds h.children_ids ∧ h.children_ids.length ≤ 0xFFFF))

instance : (d : EntryData) → Decidable d.wf
  | .Message t m => inferInstanceAs (Decidable
      (t < 2 ^ 64 ∧ validUtf8 m = true ∧ m.length ≤ 0xFFFFFFFF))
  | .AccessGroup n wp rp => inferInstanceAs (Decidable
      (validUtf8 n = true ∧ n.length ≤ 0xFFFFFFFF ∧ wp.wf ∧ rp.wf))

instance (e : Entry) : Decidable e.wf :=
  inferInstanceAs (Decidable (e.header_data.wf ∧ e.entry_data.wf))

instance (u : UserData) : Decidable u.wf :=
  inferInstanceAs (Decidable (wfIds u.entry_ids ∧ u.entry_ids.length ≤ 0xFFFFFFFF))

instance : (r : BoardRequest) → Decidable r.wf
  | .GetEntry uid eid => inferInstanceAs (Decidable (uid < 2 ^ 64 ∧ eid < 2 ^ 64))
  | .AddEntry uid e => inferInstanceAs (Decidable (uid < 2 ^ 64 ∧ e.wf))
  | .GetUser uid => inferInstanceAs (Decidable (uid < 2 ^ 64))
  | .AddUser => inferInstanceAs (Decidable True)

instance : (p : BoardResponse) → Decidable p.wf
  | .GetEntry e => inferInstanceAs (Decidable e.wf)
  | .AddEntry eid => inferInstanceAs (Decidable (eid < 2 ^ 64))
  | .GetUser u => inferInstanceAs (Decidable u.wf)
  | .AddUser uid => inferInstanceAs (Decidable (uid < 2 ^ 64))

/-! Round-trip lemmas, one per codec component, each giving the encoded
bytes together with the fact that decoding them (with anything appended)
restores the value and leaves the appended bytes untouched. -/

@[simp] theorem readByte_cons (b : Nat) (l : List Nat) : readByte (b :: l) = .ok (b, l) := rfl

theorem readU64List_flat (ids : List Nat) : wfIds ids →
    ∀ rest, readU64List ids.length (ids.flatMap (toLE 8) ++ rest) = .ok (ids, rest) := by
  induction ids with
  | nil => intro _ rest; simp [readU64List]
  | cons x xs ih =>
    intro hids rest
    have hx : x < 2 ^ 64 := hids x (by simp)
    have hxs : wfIds xs := fun y hy => hids y (by simp [hy])
    have hread : read_u64 (toLE 8 x ++ (xs.flatMap (toLE 8) ++ rest)) =
        .ok (x, xs.flatMap (toLE 8) ++ rest) :=
      readLE_toLE 8 x _ (by simpa using hx)
    simp [readU64List, List.flatMap_cons, List.append_assoc, hread, ih hxs rest]

theorem read_vec_rt (v : List Nat) (hlen : v.length ≤ 0xFFFFFFFF) (hids : wfIds v) :
    ∀ rest, read_vec (toLE 4 v.length ++ (v.flatMap (toLE 8) ++ rest)) = .ok (v, rest) := by
  intro rest
  have h32 : v.length < 2 ^ 32 := by omega
  have hread : read_u32 (toLE 4 v.length ++ (v.flatMap (toLE 8) ++ rest)) =
      .ok (v.length, v.flatMap (toLE 8) ++ rest) :=
    readLE_toLE 4 v.length _ (by simpa using h32)
  simp [read_vec, hread, readU64List_flat v hids rest]

theorem defaultedIdSet_rt (s : DefaultedIdSet) (hwf : s.wf) :
    ∃ bs, s.into_data = .ok bs ∧
      ∀ rest, DefaultedIdSet.from_data_iter (bs ++ rest) = .ok (s, rest) := by
  cases s with
  | Inherit wl bl =>
    obtain ⟨hwlids, hblids, hwllen, hbllen⟩ := hwf
    have henc : (DefaultedIdSet.Inherit wl bl).into_data =
        .ok (INHERIT_BASE :: ((toLE 4 wl.length ++ wl.flatMap (toLE 8)) ++
          (toLE 4 bl.length ++ bl.flatMap (toLE 8)))) := by
      simp [DefaultedIdSet.into_data, write_vec, hwllen, hbllen]
    refine ⟨_, henc, ?_⟩
    intro rest
    simp [DefaultedIdSet.from_data_iter, DefaultBase.from_discriminant, INHERIT_BASE,
      List.append_assoc, read_vec_rt wl hwllen hwlids, read_vec_rt bl hbllen hblids]
  | White bl =>
    obtain ⟨hblids, hbllen⟩ := hwf
    have henc : (DefaultedIdSet.White bl).into_data =
        .ok (WHITE_BASE :: (toLE 4 bl.length ++ bl.flatMap (toLE 8))) := by
      simp [DefaultedIdSet.into_data, write_vec, hbllen]
    refine ⟨_, henc, ?_⟩
    intro rest
    simp [DefaultedIdSet.from_data_iter, DefaultBase.from_discriminant, WHITE_BASE,
      INHERIT_BASE, List.append_assoc, read_vec_rt bl hbllen hblids]
  | Black wl =>
    obtain ⟨hwlids, hwllen⟩ := hwf
    have henc : (DefaultedIdSet.Black wl).into_data =
        .ok (BLACK_BASE :: (toLE 4 wl.length ++ wl.flatMap (toLE 8))) := by
      simp [DefaultedIdSet.into_data, write_vec, hwllen]
    refine ⟨_, henc, ?_⟩
    intro rest
    simp [DefaultedIdSet.from_data_iter, DefaultBase.from_discriminant, BLACK_BASE,
      WHITE_BASE, INHERIT_BASE, List.append_assoc, read_vec_rt wl hwllen hwlids]

@[simp] theorem exceptMapOk {e a b : Type} (f : a → b) (x : a) :
    Except.map f (Except.ok x : Except e a) = .ok (f x) := rfl

@[simp] theorem exceptMapErr {e a b : Type} (f : a → b) (x : e) :
    Except.map f (Except.error x : Except e a) = .error x := rfl

theorem entryData_rt (d : EntryData) (hwf : d.wf) :
    ∃ bs, d.into_data = .ok bs ∧
      ∀ rest, EntryData.from_data_iter (bs ++ rest) d.get_discriminant = .ok (d, rest) := by
  cases d with
  | Message timestamp message =>
    obtain ⟨hts, hutf, hlen⟩ := hwf
    have henc : (EntryData.Message timestamp message).into_data =
        .ok (toLE 8 timestamp ++ (toLE 4 message.length ++ message)) := by
      simp [EntryData.into_data, hlen, List.append_assoc]
    refine ⟨_, henc, ?_⟩
    intro rest
    have hts8 : read_u64 (toLE 8 timestamp ++ (toLE 4 message.length ++ (message ++ rest))) =
        .ok (timestamp, toLE 4 message.length ++ (message ++ rest)) :=
      readLE_toLE 8 timestamp _ (by simpa using hts)
    have hlen4 : read_u32 (toLE 4 message.length ++ (message ++ rest)) =
        .ok (message.length, message ++ rest) :=
      readLE_toLE 4 message.length _ (by simp; omega)
    simp [EntryData.from_data_iter, EntryData.get_discriminant, MESSAGE, List.append_assoc,
      hts8, hlen4, List.take_left, List.drop_left, from_utf8, hutf]
  | AccessGroup name write_perms read_perms =>
    obtain ⟨hutf, hlen, hwp, hrp⟩ := hwf
    obtain ⟨wbs, hwenc, hwdec⟩ := defaultedIdSet_rt write_perms hwp
    obtain ⟨rbs, hrenc, hrdec⟩ := defaultedIdSet_rt read_perms hrp
    have henc : (EntryData.AccessGroup name write_perms read_perms).into_data =
        .ok (toLE 4 name.length ++ (name ++ (wbs ++ rbs))) := by
      simp [EntryData.into_data, hlen, hwenc, hrenc, List.append_assoc]
    refine ⟨_, henc, ?_⟩
    intro rest
    have hlen4 : read_u32 (toLE 4 name.length ++ (name ++ (wbs ++ (rbs ++ rest)))) =
        .ok (name.length, name ++ (wbs ++ (rbs ++ rest))) :=
      readLE_toLE 4 name.length _ (by simp; omega)
    simp [EntryData.from_data_iter, EntryData.get_discriminant, ACCESS_GROUP, MESSAGE,
      List.append_assoc, hlen4, List.take_left, List.drop_left, from_utf8, hutf,
      hwdec, hrdec]

theorem headerData_rt (h : HeaderData) (hwf : h.wf) (t : Nat) :
    ∃ bs, h.into_data t = .ok bs ∧
      ∀ rest, HeaderData.from_data_iter (bs ++ rest) = .ok ((h, t), rest) := by
  obtain ⟨version, parent_id, children_ids, author_id⟩ := h
  obtain ⟨hv, hp, ha, hcids, hclen⟩ := hwf
  simp only at hv hp ha hcids hclen
  subst hv
  have henc : HeaderData.into_data ⟨0, parent_id, children_ids, author_id⟩ t =
      .ok (toLE 2 0x1234 ++ ((0 : Nat) :: t :: (toLE 8 parent_id ++
        (toLE 2 children_ids.length ++ (children_ids.flatMap (toLE 8) ++
          toLE 8 author_id))))) := by
    simp [HeaderData.into_data, ENTRY_MAGIC_NUMBER, ENTRY_FILE_VERSION, hclen,
      List.append_assoc]
  refine ⟨_, henc, ?_⟩
  intro rest
  have hmagic : read_u16 (toLE 2 0x1234 ++ ((0 : Nat) :: t ::
      (toLE 8 parent_id ++ (toLE 2 children_ids.length ++ (children_ids.flatMap (toLE 8) ++
        (toLE 8 author_id ++ rest)))))) = .ok (0x1234, (0 : Nat) :: t ::
      (toLE 8 parent_id ++ (toLE 2 children_ids.length ++ (children_ids.flatMap (toLE 8) ++
        (toLE 8 author_id ++ rest))))) :=
    readLE_toLE 2 _ _ (by norm_num)
  have hpar : read_u64 (toLE 8 parent_id ++ (toLE 2 children_ids.length ++
      (children_ids.flatMap (toLE 8) ++ (toLE 8 author_id ++ rest)))) =
      .ok (parent_id, toLE 2 children_ids.length ++ (children_ids.flatMap (toLE 8) ++
        (toLE 8 author_id ++ rest))) :=
    readLE_toLE 8 parent_id _ (by simpa using hp)
  have hnum : read_u16 (toLE 2 children_ids.length ++ (children_ids.flatMap (toLE 8) ++
      (toLE 8 author_id ++ rest))) = .ok (children_ids.length, children_ids.flatMap (toLE 8) ++
        (toLE 8 author_id ++ rest)) :=
    readLE_toLE 2 children_ids.length _ (by simp; omega)
  have hauth : read_u64 (toLE 8 author_id ++ rest) = .ok (author_id, rest) :=
    readLE_toLE 8 author_id _ (by simpa using ha)
  simp [HeaderData.from_data_iter, List.append_assoc, hmagic, ENTRY_MAGIC_NUMBER,
    hpar, hnum, readU64List_flat children_ids hcids, hauth]

theorem entry_rt (e : Entry) (hwf : e.wf) :
    ∃ bs, e.into_data = .ok bs ∧
      ∀ rest, Entry.from_data_iter (bs ++ rest) = .ok (e, rest) := by
  obtain ⟨header_data, entry_data⟩ := e
  obtain ⟨hh, hd⟩ := hwf
  obtain ⟨hbs, hhenc, hhdec⟩ := headerData_rt header_data hh entry_data.get_discriminant
  obtain ⟨dbs, hdenc, hddec⟩ := entryData_rt entry_data hd
  refine ⟨hbs ++ dbs, by simp [Entry.into_data, hhenc, hdenc], ?_⟩
  intro rest
  simp [Entry.from_data_iter, List.append_assoc, hhdec, hddec]

theorem userData_rt (u : UserData) (hwf : u.wf) :
    ∃ bs, u.into_data = .ok bs ∧
      ∀ rest, UserData.from_data_iter (bs ++ rest) = .ok (u, rest) := by
  obtain ⟨entry_ids⟩ := u
  obtain ⟨hids, hlen⟩ := hwf
  simp only at hids hlen
  have henc : UserData.into_data ⟨entry_ids⟩ =
      .ok (toLE 2 0x1470 ++ ((0 : Nat) :: (toLE 4 entry_ids.length ++
        entry_ids.flatMap (toLE 8)))) := by
    simp [UserData.into_data, USER_MAGIC_NUMBER, USER_FILE_VERSION, hlen, List.append_assoc]
  refine ⟨_, henc, ?_⟩
  intro rest
  have hmagic : read_u16 (toLE 2 0x1470 ++ ((0 : Nat) ::
      (toLE 4 entry_ids.length ++ (entry_ids.flatMap (toLE 8) ++ rest)))) =
      .ok (0x1470, (0 : Nat) :: (toLE 4 entry_ids.length ++
        (entry_ids.flatMap (toLE 8) ++ rest))) :=
    readLE_toLE 2 _ _ (by norm_num)
  have hnum : read_u32 (toLE 4 entry_ids.length ++ (entry_ids.flatMap (toLE 8) ++ rest)) =
      .ok (entry_ids.length, entry_ids.flatMap (toLE 8) ++ rest) :=
    readLE_toLE 4 entry_ids.length _ (by simp; omega)
  simp [UserData.from_data_iter, List.append_assoc, hmagic, USER_MAGIC_NUMBER,
    hnum, readU64List_flat entry_ids hids]

theorem boardRequest_rt (r : BoardRequest) (hwf : r.wf) :
    ∃ bs, r.into_data = .ok bs ∧
      ∀ rest, BoardRequest.from_data (bs ++ rest) = .ok r := by
  cases r with
  | GetEntry user_id entry_id =>
    obtain ⟨hu, he⟩ := hwf
    refine ⟨_, rfl, ?_⟩
    intro rest
    have h1 : read_u64 (toLE 8 user_id ++ (toLE 8 entry_id ++ rest)) =
        .ok (user_id, toLE 8 entry_id ++ rest) := readLE_toLE 8 user_id _ (by simpa using hu)
    have h2 : read_u64 (toLE 8 entry_id ++ rest) = .ok (entry_id, rest) :=
      readLE_toLE 8 entry_id _ (by simpa using he)
    simp [BoardRequest.from_data, REQUEST_FORMAT_VERSION, GET_ENTRY, List.append_assoc, h1, h2]
  | AddEntry user_id entry =>
    obtain ⟨hu, he⟩ := hwf
    obtain ⟨ebs, heenc, hedec⟩ := entry_rt entry he
    have henc : (BoardRequest.AddEntry user_id entry).into_data =
        .ok (REQUEST_FORMAT_VERSION :: ADD_ENTRY :: (toLE 8 user_id ++ ebs)) := by
      simp [BoardRequest.into_data, heenc]
    refine ⟨_, henc, ?_⟩
    intro rest
    have h1 : read_u64 (toLE 8 user_id ++ (ebs ++ rest)) = .ok (user_id, ebs ++ rest) :=
      readLE_toLE 8 user_id _ (by simpa using hu)
    simp [BoardRequest.from_data, REQUEST_FORMAT_VERSION, ADD_ENTRY, GET_ENTRY,
      List.append_assoc, h1, hedec]
  | GetUser user_id =>
    refine ⟨_, rfl, ?_⟩
    intro rest
    have h1 : read_u64 (toLE 8 user_id ++ rest) = .ok (user_id, rest) :=
      readLE_toLE 8 user_id _ (by simpa using hwf)
    simp [BoardRequest.from_data, REQUEST_FORMAT_VERSION, GET_USER, GET_ENTRY, ADD_ENTRY,
      List.append_assoc, h1]
  | AddUser =>
    refine ⟨_, rfl, ?_⟩
    intro rest
    simp [BoardRequest.from_data, REQUEST_FORMAT_VERSION, ADD_USER, GET_USER, GET_ENTRY,
      ADD_ENTRY, List.append_assoc]

theorem boardResponse_rt (p : BoardResponse) (hwf : p.wf) :
    ∃ bs, BoardResponse.into_data (.ok p) = .ok bs ∧
      ∀ rest, BoardResponse.from_data (bs ++ rest) = .ok p := by
  cases p with
  | GetEntry entry =>
    obtain ⟨ebs, heenc, hedec⟩ := entry_rt entry hwf
    have henc : BoardResponse.into_data (.ok (.GetEntry entry)) =
        .ok (RESPONSE_FORMAT_VERSION :: GET_ENTRY :: ebs) := by
      simp [BoardResponse.into_data, heenc]
    refine ⟨_, henc, ?_⟩
    intro rest
    simp [BoardResponse.from_data, RESPONSE_FORMAT_VERSION, GET_ENTRY, List.append_assoc, hedec]
  | AddEntry entry_id =>
    refine ⟨_, rfl, ?_⟩
    intro rest
    have h1 : read_u64 (toLE 8 entry_id ++ rest) = .ok (entry_id, rest) :=
      readLE_toLE 8 entry_id _ (by simpa using hwf)
    simp [BoardResponse.from_data, RESPONSE_FORMAT_VERSION, ADD_ENTRY, GET_ENTRY,
      List.append_assoc, h1]
  | GetUser user =>
    obtain ⟨ubs, huenc, hudec⟩ := userData_rt user hwf
    have henc : BoardResponse.into_data (.ok (.GetUser user)) =
        .ok (RESPONSE_FORMAT_VERSION :: GET_USER :: ubs) := by
      simp [BoardResponse.into_data, huenc]
    refine ⟨_, henc, ?_⟩
    intro rest
    simp [BoardResponse.from_data, RESPONSE_FORMAT_VERSION, GET_USER, GET_ENTRY, ADD_ENTRY,
      List.append_assoc, hudec]
  | AddUser user_id =>
    refine ⟨_, rfl, ?_⟩
    intro rest
    have h1 : read_u64 (toLE 8 user_id ++ rest) = .ok (user_id, rest) :=
      readLE_toLE 8 user_id _ (by simpa using hwf)
    simp [BoardResponse.from_data, RESPONSE_FORMAT_VERSION, ADD_USER, GET_USER, GET_ENTRY,
      ADD_ENTRY, List.append_assoc, h1]

/-- C1: for every validly-constructed value of each codec type (Entry,
UserData, BoardRequest, BoardResponse), the encoder succeeds and decoding
the produced bytes yields exactly the original value:
decode(encode(x)) = x. -/
theorem codec_roundtrip :
    (∀ e : Entry, e.wf → (e.into_data).map Entry.from_data = .ok (.ok e)) ∧
    (∀ u : UserData, u.wf → (u.into_data).map UserData.from_data = .ok (.ok u)) ∧
    (∀ r : BoardRequest, r.wf → (r.into_data).map BoardRequest.from_data = .ok (.ok r)) ∧
    (∀ p : BoardResponse, p.wf →
      (BoardResponse.into_data (.ok p)).map BoardResponse.from_data = .ok (.ok p)) := by
  refine ⟨?_, ?_, ?_, ?_⟩
  · intro e hwf
    obtain ⟨bs, henc, hdec⟩ := entry_rt e hwf
    have h0 := hdec []
    rw [List.append_nil] at h0
    simp [henc, Entry.from_data, h0]
  · intro u hwf
    obtain ⟨bs, henc, hdec⟩ := userData_rt u hwf
    have h0 := hdec []
    rw [List.append_nil] at h0
    simp [henc, UserData.from_data, h0]
  · intro r hwf
    obtain ⟨bs, henc, hdec⟩ := boardRequest_rt r hwf
    have h0 := hdec []
    rw [List.append_nil] at h0
    simp [henc, h0]
  · intro p hwf
    obtain ⟨bs, henc, hdec⟩ := boardResponse_rt p hwf
    have h0 := hdec []
    rw [List.append_nil] at h0
    simp [henc, h0]

/-- Witness for C1 at concrete values of all four codec types. -/
theorem codec_roundtrip_witness :
    ((Entry.mk ⟨0, 0, [3], 5⟩ (.Message 7 [72, 105])).into_data).map Entry.from_data
      = .ok (.ok (Entry.mk ⟨0, 0, [3], 5⟩ (.Message 7 [72, 105]))) ∧
    ((UserData.mk [9]).into_data).map UserData.from_data = .ok (.ok (UserData.mk [9])) ∧
    ((BoardRequest.AddEntry 2 (Entry.mk ⟨0, 0, [], 1⟩
        (.AccessGroup [65] (.Inherit [1] [2]) (.White [])))).into_data).map
      BoardRequest.from_data = .ok (.ok (BoardRequest.AddEntry 2 (Entry.mk ⟨0, 0, [], 1⟩
        (.AccessGroup [65] (.Inherit [1] [2]) (.White []))))) ∧
    ((BoardResponse.into_data (.ok (.AddUser 4))).map BoardResponse.from_data
      = .ok (.ok (.AddUser 4))) :=
  ⟨codec_roundtrip.1 _ (by decide), codec_roundtrip.2.1 _ (by decide),
   codec_roundtrip.2.2.1 _ (by decide), codec_roundtrip.2.2.2 _ (by decide)⟩

/-- C10: every decoder consumes only the bytes of the record itself and
ignores whatever follows: decoding encode(x) with any byte sequence
appended succeeds and returns exactly x. -/
theorem decoders_ignore_trailing :
    (∀ (e : Entry) (s : List Nat), e.wf →
      (e.into_data).map (fun bs => Entry.from_data (bs ++ s)) = .ok (.ok e)) ∧
    (∀ (u : UserData) (s : List Nat), u.wf →
      (u.into_data).map (fun bs => UserData.from_data (bs ++ s)) = .ok (.ok u)) ∧
    (∀ (r : BoardRequest) (s : List Nat), r.wf →
      (r.into_data).map (fun bs => BoardRequest.from_data (bs ++ s)) = .ok (.ok r)) ∧
    (∀ (p : BoardResponse) (s : List Nat), p.wf →
      (BoardResponse.into_data (.ok p)).map (fun bs => BoardResponse.from_data (bs ++ s))
        = .ok (.ok p)) := by
  refine ⟨?_, ?_, ?_, ?_⟩
  · intro e s hwf
    obtain ⟨bs, henc, hdec⟩ := entry_rt e hwf
    simp [henc, Entry.from_data, hdec s]
  · intro u s hwf
    obtain ⟨bs, henc, hdec⟩ := userData_rt u hwf
    simp [henc, UserData.from_data, hdec s]
  · intro r s hwf
    obtain ⟨bs, henc, hdec⟩ := boardRequest_rt r hwf
    simp [henc, hdec s]
  · intro p s hwf
    obtain ⟨bs, henc, hdec⟩ := boardResponse_rt p hwf
    simp [henc, hdec s]

/-- Witness for C10 at concrete values with concrete trailing bytes. -/
theorem decoders_ignore_trailing_witness :
    ((Entry.mk ⟨0, 1, [], 6⟩ (.Message 3 [97])).into_data).map
        (fun bs => Entry.from_data (bs ++ [0xde, 0xad]))
      = .ok (.ok (Entry.mk ⟨0, 1, [], 6⟩ (.Message 3 [97]))) ∧
    ((UserData.mk [2, 8]).into_data).map
        (fun bs => UserData.from_data (bs ++ [0xbe, 0xef]))
      = .ok (.ok (UserData.mk [2, 8])) ∧
    ((BoardRequest.GetEntry 4 11).into_data).map
        (fun bs => BoardRequest.from_data (bs ++ [1, 2, 3]))
      = .ok (.ok (BoardRequest.GetEntry 4 11)) ∧
    ((BoardResponse.into_data (.ok (.GetUser (UserData.mk [5])))).map
        (fun bs => BoardResponse.from_data (bs ++ [9]))
      = .ok (.ok (.GetUser (UserData.mk [5])))) :=
  ⟨decoders_ignore_trailing.1 _ [0xde, 0xad] (by decide),
   decoders_ignore_trailing.2.1 _ [0xbe, 0xef] (by decide),
   decoders_ignore_trailing.2.2.1 _ [1, 2, 3] (by decide),
   decoders_ignore_trailing.2.2.2 _ [9] (by decide)⟩

/-! Length-prefix overrun behaviour (C8, C9). -/

theorem readLE_ok_drop (n : Nat) (l : List Nat) (h : n ≤ l.length) :
    ∃ v, readLE n l = .ok (v, l.drop n) := by
  induction n generalizing l with
  | zero => exact ⟨0, rfl⟩
  | succ n ih =>
    cases l with
    | nil => simp at h
    | cons b l =>
      obtain ⟨v, hv⟩ := ih l (by simpa using h)
      exact ⟨b + 256 * v, by simp [readLE, hv]⟩

theorem readU64List_short (n : Nat) (l : List Nat) (h : l.length < 8 * n) :
    readU64List n l = .error .InsufficientBytes := by
  induction n generalizing l with
  | zero => omega
  | succ n ih =>
    by_cases h8 : l.length < 8
    · simp [readU64List, read_u64, readLE_err 8 l h8]
    · obtain ⟨v, hv⟩ := readLE_ok_drop 8 l (by omega)
      have hdrop : (l.drop 8).length < 8 * n := by
        simp [List.length_drop]
        omega
      simp [readU64List, read_u64, hv, ih (l.drop 8) hdrop]

/-- C8 counterexample: a Message entry whose message-size prefix promises
5 bytes while only 2 remain is decoded successfully with the truncated
2-byte message, not rejected with InsufficientBytes (the length check in
EntryData::from_data_iter is commented out; Iterator::take silently
yields fewer bytes). -/
theorem message_size_truncation_accepted :
    Entry.from_data [0x34, 0x12, 0x00, 0x00,
      0, 0, 0, 0, 0, 0, 0, 0,
      0, 0,
      0, 0, 0, 0, 0, 0, 0, 0,
      0, 0, 0, 0, 0, 0, 0, 0,
      5, 0, 0, 0,
      65, 66] =
    .ok (Entry.mk ⟨0, 0, [], 0⟩ (.Message 0 [65, 66])) := by decide

/-- C8 amended: a list-length prefix (the user record's entry count, the
header's children count, an id-set list length) that promises more
elements than the remaining input contains makes the decoder fail with
InsufficientBytes; the string-size prefixes are not checked this way (see
the counterexample: a short Message payload decodes successfully,
truncated). -/
theorem list_len_overrun_insufficient :
    (∀ (n : Nat) (rest : List Nat), n < 2 ^ 32 → rest.length < 8 * n →
      UserData.from_data (toLE 2 0x1470 ++ ((0 : Nat) :: (toLE 4 n ++ rest)))
        = .error .InsufficientBytes) ∧
    (∀ (t p n : Nat) (rest : List Nat), p < 2 ^ 64 → n < 2 ^ 16 → rest.length < 8 * n →
      HeaderData.from_data (toLE 2 0x1234 ++ ((0 : Nat) :: t :: (toLE 8 p ++ (toLE 2 n ++ rest))))
        = .error .InsufficientBytes) ∧
    (∀ (n : Nat) (rest : List Nat), n < 2 ^ 32 → rest.length < 8 * n →
      DefaultedIdSet.from_data_iter ((WHITE_BASE : Nat) :: (toLE 4 n ++ rest))
        = .error .InsufficientBytes) := by
  refine ⟨?_, ?_, ?_⟩
  · intro n rest hn hrest
    have hmagic : read_u16 (toLE 2 0x1470 ++ ((0 : Nat) :: (toLE 4 n ++ rest))) =
        .ok (0x1470, (0 : Nat) :: (toLE 4 n ++ rest)) := readLE_toLE 2 _ _ (by norm_num)
    have hnum : read_u32 (toLE 4 n ++ rest) = .ok (n, rest) :=
      readLE_toLE 4 n _ (by simpa using hn)
    simp [UserData.from_data, UserData.from_data_iter, USER_MAGIC_NUMBER, hmagic, hnum,
      readU64List_short n rest hrest]
  · intro t p n rest hp hn hrest
    have hmagic : read_u16 (toLE 2 0x1234 ++ ((0 : Nat) :: t :: (toLE 8 p ++
        (toLE 2 n ++ rest)))) = .ok (0x1234, (0 : Nat) :: t :: (toLE 8 p ++
        (toLE 2 n ++ rest))) := readLE_toLE 2 _ _ (by norm_num)
    have hpar : read_u64 (toLE 8 p ++ (toLE 2 n ++ rest)) =
        .ok (p, toLE 2 n ++ rest) := readLE_toLE 8 p _ (by simpa using hp)
    have hnum : read_u16 (toLE 2 n ++ rest) = .ok (n, rest) :=
      readLE_toLE 2 n _ (by simpa using hn)
    simp [HeaderData.from_data, HeaderData.from_data_iter, ENTRY_MAGIC_NUMBER, hmagic,
      hpar, hnum, readU64List_short n rest hrest]
  · intro n rest hn hrest
    have hnum : read_u32 (toLE 4 n ++ rest) = .ok (n, rest) :=
      readLE_toLE 4 n _ (by simpa using hn)
    simp [DefaultedIdSet.from_data_iter, DefaultBase.from_discriminant, WHITE_BASE,
      INHERIT_BASE, read_vec, hnum, readU64List_short n rest hrest]

/-- Witness for the amended C8 at concrete inputs: each list-length
prefix promises one element while no bytes remain. -/
theorem list_len_overrun_insufficient_witness :
    UserData.from_data (toLE 2 0x1470 ++ ((0 : Nat) :: (toLE 4 1 ++ [])))
      = .error .InsufficientBytes ∧
    HeaderData.from_data (toLE 2 0x1234 ++ ((0 : Nat) :: (0 : Nat) :: (toLE 8 0 ++
      (toLE 2 1 ++ [])))) = .error .InsufficientBytes ∧
    DefaultedIdSet.from_data_iter ((WHITE_BASE : Nat) :: (toLE 4 1 ++ []))
      = .error .InsufficientBytes :=
  ⟨list_len_overrun_insufficient.1 1 [] (by decide) (by decide),
   list_len_overrun_insufficient.2.1 0 0 1 [] (by decide) (by decide) (by decide),
   list_len_overrun_insufficient.2.2 1 [] (by decide) (by decide)⟩

/-- C9: when a length bound is exceeded the encoder does not return the
declared `OOBUsizeConversion` error; it hits the `assert!` and panics
(modelled as the `assertFailed` outcome): a header with 65,536 children,
a message of 2^32 bytes, and an id list of 2^32 entries all panic.  The
`OOBUsizeConversion` variant is never constructed anywhere in lib.rs. -/
theorem encode_oversize_panics :
    (∀ (h : HeaderData), 0xFFFF < h.children_ids.length →
      ∀ t, h.into_data t = .error .assertFailed) ∧
    (∀ (ts : Nat) (msg : List Nat), 0xFFFFFFFF < msg.length →
      EntryData.into_data (.Message ts msg) = .error .assertFailed) ∧
    (∀ v : List Nat, 0xFFFFFFFF < v.length → write_vec v = .error .assertFailed) := by
  refine ⟨?_, ?_, ?_⟩
  · intro h hlen t
    unfold HeaderData.into_data
    rw [if_neg (by omega)]
  · intro ts msg hlen
    simp only [EntryData.into_data]
    rw [if_neg (by omega)]
  · intro v hlen
    unfold write_vec
    rw [if_neg (by omega)]

/-- Witness for C9 at concrete oversized inputs: a header with 65,536
children, a message of 2^32 bytes, and an id list of 2^32 entries each
make the encoder panic. -/
theorem encode_oversize_panics_witness :
    HeaderData.into_data ⟨0, 0, List.replicate 65536 0, 0⟩ 0 = .error .assertFailed ∧
    EntryData.into_data (.Message 0 (List.replicate (2 ^ 32) 0)) = .error .assertFailed ∧
    write_vec (List.replicate (2 ^ 32) 0) = .error .assertFailed :=
  ⟨encode_oversize_panics.1 ⟨0, 0, List.replicate 65536 0, 0⟩
      (show (0xFFFF : Nat) < (List.replicate 65536 (0 : Nat)).length by
        rw [List.length_replicate]; decide) 0,
   encode_oversize_panics.2.1 0 (List.replicate (2 ^ 32) 0)
      (show (0xFFFFFFFF : Nat) < (List.replicate (2 ^ 32) (0 : Nat)).length by
        rw [List.length_replicate]; decide),
   encode_oversize_panics.2.2 (List.replicate (2 ^ 32) 0)
      (show (0xFFFFFFFF : Nat) < (List.replicate (2 ^ 32) (0 : Nat)).length by
        rw [List.length_replicate]; decide)⟩

/-! Server model, src/src/bin/server.rs.  The server binary predates the
current lib.rs: it matches request/entry shapes (AddEntry carrying an
entry_id, AddUser carrying a user_id, AccessGroup carrying a single
access_base with one whitelist and one blacklist, responses carrying no
ids) that lib.rs no longer defines, so those shapes are modelled here
from the spec where marked. -/

namespace Server

/-- Modelled from the spec: server.rs line 134 destructures
EntryData::AccessGroup with fields name, access_base, whitelist_ids and
blacklist_ids — a shape absent from src/src/lib.rs.  Spec section 9
records this earlier single-triple form of access-group storage; the
base variants mirror DefaultBase. -/
inductive AccessBase where
  | Inherit
  | White
  | Black
deriving DecidableEq, Repr

/-- Modelled from the spec: the access-group payload triple of the
earlier entry shape (spec section 9), as server.rs lines 129-146 use it. -/
structure SrvAccessGroup where
  access_base : AccessBase
  whitelist_ids : List Nat
  blacklist_ids : List Nat
deriving DecidableEq, Repr

/-- One stored entry as has_access_perm reads it: the header's parent
pointer and, when the entry-type byte is ACCESS_GROUP, the access-group
payload.  A SrvStore maps entry ids to the decoded contents of their
entry files; `none` is a missing file (get_entry_data_iter fails with
DoesNotExist, server.rs line 54). -/
structure SrvEntry where
  parent_id : Nat
  group : Option SrvAccessGroup
deriving DecidableEq, Repr

def SrvStore := Nat → Option SrvEntry

/-- Decision a single access group makes for user_id (server.rs lines
136-146): the whitelist is consulted first, then the blacklist, then the
base; an Inherit base defers (none). -/
def agDecision (user_id : Nat) (g : SrvAccessGroup) : Option Bool :=
  if g.whitelist_ids.contains user_id then some true
  else if g.blacklist_ids.contains user_id then some false
  else match g.access_base with
    | .White => some true
    | .Black => some false
    | .Inherit => none

/-- Decision one loop iteration makes: the lines 128-147 body runs the
access-group decision only when the entry type is ACCESS_GROUP. -/
def entryDecision (user_id : Nat) (e : SrvEntry) : Option Bool :=
  match e.group with
  | some g => agDecision user_id g
  | none => none

/-- The loop of MessageBoard::has_access_perm (server.rs lines 127-154)
with explicit fuel: `none` means the loop has not returned within `fuel`
iterations (the source imposes no iteration bound of its own). -/
def hasAccessPermLoop (store : SrvStore) (user_id : Nat) :
    Nat → Nat → SrvEntry → Option (Except DataError Bool)
  | 0, _, _ => none
  | fuel + 1, current_id, entry =>
    match entryDecision user_id entry with
    | some b => some (.ok b)
    | none =>
      if current_id = ROOT_ID then some (.ok false)
      else match store entry.parent_id with
        | none => some (.error .DoesNotExist)
        | some e2 => hasAccessPermLoop store user_id fuel entry.parent_id e2

/-- MessageBoard::has_access_perm (server.rs lines 123-157): read the
target entry, then ascend. -/
def has_access_perm (store : SrvStore) (user_id entry_id fuel : Nat) :
    Option (Except DataError Bool) :=
  match store entry_id with
  | none => some (.error .DoesNotExist)
  | some e => hasAccessPermLoop store user_id fuel entry_id e

/-- The entry at `i` exists and makes no definite decision for user_id. -/
def noDecisionAt (store : SrvStore) (user_id i : Nat) : Bool :=
  match store i with
  | some e => (entryDecision user_id e).isNone
  | none => false

def parentAt (store : SrvStore) (i : Nat) : Option Nat :=
  (store i).map (·.parent_id)

/-- An ancestor chain from its head down to the root on which no access
group decides for user_id: every listed id exists in the store and makes
no decision, only the final id is the root, and each id's parent pointer
is the next listed id. -/
def undecidedChainToRoot (store : SrvStore) (user_id : Nat) : List Nat → Bool
  | [] => false
  | [i] => noDecisionAt store user_id i && decide (i = ROOT_ID)
  | i :: j :: rest =>
    noDecisionAt store user_id i && decide (i ≠ ROOT_ID) &&
      parentAt store i == some j && undecidedChainToRoot store user_id (j :: rest)

/-- An ancestor chain from its head down to the root, with no constraint
on decisions: every listed id exists, only the final id is the root, and
each id's parent pointer is the next listed id. -/
def chainToRoot (store : SrvStore) : List Nat → Bool
  | [] => false
  | [i] => (store i).isSome && decide (i = ROOT_ID)
  | i :: j :: rest =>
    (store i).isSome && decide (i ≠ ROOT_ID) &&
      parentAt store i == some j && chainToRoot store (j :: rest)

theorem undecidedChain_head (store : SrvStore) (user_id i : Nat) (rest : List Nat)
    (h : undecidedChainToRoot store user_id (i :: rest) = true) :
    noDecisionAt store user_id i = true := by
  cases rest <;> simp [undecidedChainToRoot] at h <;> tauto

theorem hasAccessPermLoop_undecided (store : SrvStore) (user_id : Nat) :
    ∀ (ids : List Nat) (i : Nat) (e : SrvEntry) (fuel : Nat),
      undecidedChainToRoot store user_id (i :: ids) = true →
      store i = some e →
      ids.length < fuel →
      hasAccessPermLoop store user_id fuel i e = some (.ok false) := by
  intro ids
  induction ids with
  | nil =>
    intro i e fuel hchain hstore hfuel
    simp [undecidedChainToRoot, noDecisionAt, hstore, Option.isNone_iff_eq_none] at hchain
    obtain ⟨hdec, hroot⟩ := hchain
    cases fuel with
    | zero => omega
    | succ f => simp [hasAccessPermLoop, hdec, hroot]
  | cons j rest ih =>
    intro i e fuel hchain hstore hfuel
    have hj : noDecisionAt store user_id j = true :=
      undecidedChain_head store user_id j rest (by
        simp [undecidedChainToRoot] at hchain
        tauto)
    simp [undecidedChainToRoot, noDecisionAt, parentAt, hstore,
      Option.isNone_iff_eq_none] at hchain
    obtain ⟨⟨⟨hdec, hiroot⟩, hparent⟩, hchain2⟩ := hchain
    cases fuel with
    | zero => omega
    | succ f =>
      cases hsj : store j with
      | none => simp [noDecisionAt, hsj] at hj
      | some e2 =>
        have hrec := ih j e2 f hchain2 hsj (by simpa using Nat.lt_of_succ_lt_succ hfuel)
        simp [hasAccessPermLoop, hdec, hiroot, hparent, hsj, hrec]

/-- C5: whenever the upward traversal from the target reaches the root
without any access group on the chain (the root included) producing a
definite allow or deny for user_id, the resolver returns Ok(false):
deny. -/
theorem resolver_denies_undecided_chain (store : SrvStore) (user_id : Nat)
    (ids : List Nat) (target fuel : Nat)
    (hchain : undecidedChainToRoot store user_id ids = true)
    (hhead : ids.head? = some target)
    (hfuel : ids.length ≤ fuel) :
    has_access_perm store user_id target fuel = some (.ok false) := by
  cases ids with
  | nil => simp at hhead
  | cons i rest =>
    have : i = target := by simpa using hhead
    subst this
    have hnd : noDecisionAt store user_id i = true :=
      undecidedChain_head store user_id i rest hchain
    cases hstore : store i with
    | none => simp [noDecisionAt, hstore] at hnd
    | some e =>
      have := hasAccessPermLoop_undecided store user_id rest i e fuel hchain hstore
        (by simpa using hfuel)
      simpa [has_access_perm, hstore] using this

/-- Witness for C5: a two-entry store (a Message entry 1 under a Message
root, so no access group ever decides) on which the resolver denies. -/
theorem resolver_denies_undecided_chain_witness :
    has_access_perm
      (fun n => if n = 1 then some ⟨0, none⟩ else if n = 0 then some ⟨0, none⟩ else none)
      7 1 2 = some (.ok false) :=
  resolver_denies_undecided_chain
    (fun n => if n = 1 then some ⟨0, none⟩ else if n = 0 then some ⟨0, none⟩ else none)
    7 [1, 0] 1 2 (by decide) rfl (by decide)

theorem hasAccessPermLoop_total (store : SrvStore) (user_id : Nat) :
    ∀ (ids : List Nat) (i : Nat) (e : SrvEntry) (fuel : Nat),
      chainToRoot store (i :: ids) = true →
      store i = some e →
      ids.length < fuel →
      (hasAccessPermLoop store user_id fuel i e).isSome = true := by
  intro ids
  induction ids with
  | nil =>
    intro i e fuel hchain hstore hfuel
    simp [chainToRoot] at hchain
    cases fuel with
    | zero => omega
    | succ f =>
      cases hd : entryDecision user_id e with
      | some b => simp [hasAccessPermLoop, hd]
      | none => simp [hasAccessPermLoop, hd, hchain.2]
  | cons j rest ih =>
    intro i e fuel hchain hstore hfuel
    simp [chainToRoot, parentAt, hstore] at hchain
    obtain ⟨⟨hiroot, hparent⟩, hchain2⟩ := hchain
    cases fuel with
    | zero => omega
    | succ f =>
      cases hd : entryDecision user_id e with
      | some b => simp [hasAccessPermLoop, hd]
      | none =>
        cases hsj : store j with
        | none => simp [hasAccessPermLoop, hd, hiroot, hparent, hsj]
        | some e2 =>
          have hrec := ih j e2 f hchain2 hsj (by simpa using Nat.lt_of_succ_lt_succ hfuel)
          simp [hasAccessPermLoop, hd, hiroot, hparent, hsj, hrec]

/-- C6 amended, positive part: whenever the parent chain from the target
reaches the root, the resolver returns some verdict within a number of
iterations equal to the chain's length — the ascent is bounded by the
depth of the path from the target to the root. -/
theorem resolver_bounded_by_depth (store : SrvStore) (user_id : Nat)
    (ids : List Nat) (target fuel : Nat)
    (hchain : chainToRoot store ids = true)
    (hhead : ids.head? = some target)
    (hfuel : ids.length ≤ fuel) :
    (has_access_perm store user_id target fuel).isSome = true := by
  cases ids with
  | nil => simp at hhead
  | cons i rest =>
    have : i = target := by simpa using hhead
    subst this
    have hsome : (store i).isSome = true := by
      cases rest <;> simp [chainToRoot] at hchain <;> tauto
    cases hstore : store i with
    | none => simp [hstore] at hsome
    | some e =>
      have := hasAccessPermLoop_total store user_id rest i e fuel hchain hstore
        (by simpa using hfuel)
      simpa [has_access_perm, hstore] using this

/-- Witness for the amended C6: a depth-two chain is resolved with fuel 2. -/
theorem resolver_bounded_by_depth_witness :
    (has_access_perm
      (fun n => if n = 1 then some ⟨0, none⟩
        else if n = 0 then some ⟨0, some ⟨.White, [], []⟩⟩ else none)
      9 1 2).isSome = true :=
  resolver_bounded_by_depth
    (fun n => if n = 1 then some ⟨0, none⟩
      else if n = 0 then some ⟨0, some ⟨.White, [], []⟩⟩ else none)
    9 [1, 0] 1 2 (by decide) rfl (by decide)

/-- The resolver never returns on this store, whatever the iteration
budget: the loop runs forever. -/
def resolverDiverges (store : SrvStore) (user_id entry_id : Nat) : Prop :=
  ∀ fuel, has_access_perm store user_id entry_id fuel = none

/-- The one-entry store whose single entry 1 is a Message that is its own
parent: a parent-pointer cycle not passing through the root. -/
def cycStore : SrvStore := fun n => if n = 1 then some ⟨1, none⟩ else none

/-- C6 counterexample: on a store whose parent pointers form a cycle not
passing through the root, the resolver never terminates — there is no
maximum traversal depth and no InternalError; the loop of
has_access_perm runs forever. -/
theorem resolver_cycle_diverges : resolverDiverges cycStore 5 1 := by
  intro fuel
  have key : ∀ f, hasAccessPermLoop cycStore 5 f 1 ⟨1, none⟩ = none := by
    intro f
    induction f with
    | zero => rfl
    | succ f ih =>
      have hstep : hasAccessPermLoop cycStore 5 (f + 1) 1 ⟨1, none⟩ =
          hasAccessPermLoop cycStore 5 f 1 ⟨1, none⟩ := by
        simp [hasAccessPermLoop, entryDecision, ROOT_ID, cycStore]
      rw [hstep, ih]
  simpa [has_access_perm, cycStore] using key fuel

/-! The request handler (server.rs lines 41-120 and 172-213). -/

/-- Modelled from the spec: the request shape handle_request (server.rs
lines 176-200) matches — AddEntry carries a client-supplied entry_id and
AddUser a client-supplied user_id, fields absent from lib.rs's
BoardRequest; spec sections 4.4 and 9 record that the source briefly
carried these client-supplied ids. -/
inductive SrvBoardRequest where
  | GetEntry (user_id entry_id : Nat)
  | AddEntry (user_id entry_id : Nat) (entry : Entry)
  | GetUser (user_id : Nat)
  | AddUser (user_id : Nat)
deriving DecidableEq, Repr

/-- Modelled from the spec: the response payload enum BoardResponseData
server.rs returns (lines 182-199); its AddEntry and AddUser variants
carry no id. -/
inductive BoardResponseData where
  | GetEntry (entry : Entry)
  | AddEntry
  | GetUser (user : UserData)
  | AddUser
deriving DecidableEq, Repr

/-- File-system contents the handler touches: a decoded entry per id
(entries/<id> file), a decoded user record per id (users/<id> file), and
the decoded user_list file when present.  Writes store the encoding of a
value and reads decode it; byte-level faithfulness of that codec is
established by the round-trip theorems, so files hold decoded values
here. -/
structure BoardState where
  entries : Nat → Option Entry
  users : Nat → Option UserData
  user_list : Option (List Nat)

/-- MessageBoard::get_entry (server.rs lines 110-112); a missing file is
DoesNotExist (line 54). -/
def get_entry (s : BoardState) (entry_id : Nat) : Except DataError Entry :=
  match s.entries entry_id with
  | some e => .ok e
  | none => .error .DoesNotExist

/-- MessageBoard::write_entry (server.rs lines 68-75): fails with
AlreadyExists when the entry file exists. -/
def write_entry (s : BoardState) (entry_id : Nat) (entry : Entry) :
    Except DataError BoardState :=
  match s.entries entry_id with
  | some _ => .error .AlreadyExists
  | none => .ok { s with entries := fun i => if i = entry_id then some entry else s.entries i }

/-- MessageBoard::get_user (server.rs lines 59-63). -/
def get_user (s : BoardState) (user_id : Nat) : Except DataError UserData :=
  match s.users user_id with
  | some u => .ok u
  | none => .error .DoesNotExist

/-- MessageBoard::write_user_data (server.rs lines 90-98): requires the
user file to exist. -/
def write_user_data (s : BoardState) (user_id : Nat) (data : UserData) :
    Except DataError BoardState :=
  match s.users user_id with
  | none => .error .DoesNotExist
  | some _ => .ok { s with users := fun i => if i = user_id then some data else s.users i }

/-- MessageBoard::add_entry (server.rs lines 114-120): write the entry at
the given id, then append the id to the user's record.  No other file is
touched; in particular the parent entry is neither read nor rewritten. -/
def add_entry (s : BoardState) (user_id entry_id : Nat) (entry : Entry) :
    Except DataError BoardState := do
  let s ← write_entry s entry_id entry
  let user_data ← get_user s user_id
  write_user_data s user_id ⟨user_data.entry_ids ++ [entry_id]⟩

/-- MessageBoard::get_user_list (server.rs lines 101-108); the chunking
of the flat u64 file is abstracted to the stored list. -/
def get_user_list (s : BoardState) : Except DataError (List Nat) :=
  match s.user_list with
  | some l => .ok l
  | none => .error .DoesNotExist

/-- MessageBoard::add_user (server.rs lines 159-169).  The user_list
file is opened with File::open — read-only — and then written with
write_all: the write fails on the read-only handle, and the error is
mapped to InternalError (line 163); when the file is missing, File::open
itself fails and is mapped to InternalError (line 162).  Either way the
function returns Err(InternalError) before reaching the File::create of
the user file on line 167. -/
def add_user (s : BoardState) (new_user_id : Nat) : Except DataError BoardState :=
  match s.user_list with
  | none => .error .InternalError
  | some _ => .error .InternalError

/-- handle_request (server.rs lines 175-201), parameterized by the
permission resolver's verdict (board.has_access_perm), returning the
response data and the resulting store state. -/
def handle_request (hasPerm : Nat → Nat → Except DataError Bool) (s : BoardState) :
    SrvBoardRequest → Except DataError (BoardResponseData × BoardState)
  | .GetEntry user_id entry_id => do
    let entry ← get_entry s entry_id
    if entry.header_data.author_id ≠ user_id then do
      let p ← hasPerm user_id entry.header_data.parent_id
      if ! p then .error .InsufficientPerms
      else .ok (.GetEntry entry, s)
    else .ok (.GetEntry entry, s)
  | .AddEntry user_id entry_id entry => do
    let p ← hasPerm user_id entry.header_data.parent_id
    if ! p then .error .InsufficientPerms
    else do
      let s2 ← add_entry s user_id entry_id entry
      .ok (.AddEntry, s2)
  | .GetUser user_id => do
    let user ← get_user s user_id
    .ok (.GetUser user, s)
  | .AddUser user_id => do
    let users ← get_user_list s
    if users.contains user_id then .error .AlreadyExists
    else do
      let s2 ← add_user s user_id
      .ok (.AddUser, s2)

/-- C4: when the requesting user is the target entry's author, GetEntry
returns the entry without consulting the permission resolver: the
outcome is the same for every resolver — including resolvers that deny
everything or fail — so the request succeeds regardless of the
permission state of the entry's parent chain. -/
theorem getEntry_author_bypass (hasPerm : Nat → Nat → Except DataError Bool)
    (s : BoardState) (user_id entry_id : Nat) (entry : Entry)
    (hentry : s.entries entry_id = some entry)
    (hauthor : entry.header_data.author_id = user_id) :
    handle_request hasPerm s (.GetEntry user_id entry_id) = .ok (.GetEntry entry, s) := by
  simp [handle_request, get_entry, hentry, hauthor]

/-- Witness for C4: a store with one entry authored by user 7, resolved
with a resolver that always fails — the request still succeeds. -/
theorem getEntry_author_bypass_witness :
    handle_request (fun _ _ => .error .InternalError)
      ⟨fun i => if i = 3 then some ⟨⟨0, 0, [], 7⟩, .Message 0 []⟩ else none,
        fun _ => none, none⟩
      (.GetEntry 7 3)
      = .ok (.GetEntry ⟨⟨0, 0, [], 7⟩, .Message 0 []⟩,
        ⟨fun i => if i = 3 then some ⟨⟨0, 0, [], 7⟩, .Message 0 []⟩ else none,
          fun _ => none, none⟩) :=
  getEntry_author_bypass (fun _ _ => .error .InternalError) _ 7 3 _ rfl rfl

/-- The message entry user 5 submits under parent 0 in the C3 evaluation. -/
def msgE : Entry := ⟨⟨0, 0, [], 5⟩, .Message 0 []⟩

/-- The store for the C3 evaluation: a root access-group entry 0 with no
children, a user 5 with an empty record, and a user list containing 5. -/
def addEntrySt : BoardState :=
  ⟨fun i => if i = 0 then some ⟨⟨0, 0, [], 0⟩, .AccessGroup [] (.White []) (.White [])⟩
      else none,
    fun i => if i = 5 then some ⟨[]⟩ else none,
    some [5]⟩

/-- C3: evaluating the handler on a permitted AddEntry (the resolver
grants): the handler succeeds, writes the new entry at the
request-supplied id 9 and appends 9 to user 5's record — but the parent
entry 0 is neither read nor rewritten: its children_ids remains [] and
does not contain the new id, contrary to the claim that a successful
AddEntry updates the parent's children_ids. -/
theorem addEntry_leaves_parent_unchanged :
    (handle_request (fun _ _ => .ok true) addEntrySt (.AddEntry 5 9 msgE)).map (fun r =>
      (r.1, (r.2.entries 0).map (fun e => e.header_data.children_ids),
        r.2.entries 9, r.2.users 5)) =
    .ok (.AddEntry, some [], some msgE, some ⟨[9]⟩) := by rfl

/-- The store for the C7 evaluation: an existing, empty user list. -/
def addUserSt : BoardState := ⟨fun _ => none, fun _ => none, some []⟩

/-- C7: evaluating the handler on AddUser: the request itself carries a
client-chosen user id (7), and the handler fails with InternalError —
add_user opens the user list read-only so its append fails — creating no
user file and returning no server-assigned id (the response variant
carries none), contrary to the claim. -/
theorem addUser_fails_internal_error :
    handle_request (fun _ _ => .ok true) addUserSt (.AddUser 7)
      = .error .InternalError := by rfl

end Server

end MessageBoard
